import Mathlib

/-!
Shallow embedding of `src/counters/counters.py`: the `CountupTimer` and
`CountdownTimer` classes. Clock instants (`time.time()` values) are modelled
as rationals and passed explicitly to every operation that reads the clock.
Python `None` becomes `Option.none`; Python truthiness of a float
(`if self._time_started:`) is the Boolean `truthy` below, which is false for
both `None` and `0.0`. An operation that would raise a `TypeError`
(subtracting `None`) returns `Option.none`.
-/

/-- The instance attributes set by `CountupTimer.__init__`. -/
structure TimerState where
  _time_started : Option ℚ
  _time_paused : Option ℚ
  _elapsed : ℚ
  _paused : Bool
  _duration : ℚ
  deriving DecidableEq, Repr

namespace CountupTimer

/-- Python truthiness of an optional float: `None` and `0.0` are falsy. -/
def truthy : Option ℚ → Bool
  | none => false
  | some t => decide (t ≠ 0)

/-- `__init__(self, duration=0)`. -/
def init (duration : ℚ) : TimerState :=
  { _time_started := none
    _time_paused := none
    _elapsed := 0
    _paused := true
    _duration := duration }

/-- `reset(self, duration=0)`: `self.__init__(duration)`. -/
def reset (duration : ℚ) (_s : TimerState) : TimerState :=
  init duration

/-- `start(self)`: `if self._time_started: return` (truthiness check). -/
def start (now : ℚ) (s : TimerState) : TimerState :=
  if truthy s._time_started then s
  else { s with _time_started := some now, _paused := false }

/-- `pause(self)`: `if self._paused or self._time_started is None: return`. -/
def pause (now : ℚ) (s : TimerState) : TimerState :=
  if s._paused = true ∨ s._time_started = none then s
  else { s with _time_paused := some now, _paused := true }

/-- `resume(self)`: `if not self._paused or self._time_started is None: return`;
otherwise `self._time_started += time.time() - self._time_paused` and
`self._paused = False`. Note that `self._time_paused` is not cleared.
`none` models the `TypeError` of `time.time() - None`. -/
def resume (now : ℚ) (s : TimerState) : Option TimerState :=
  if s._paused = false ∨ s._time_started = none then some s
  else
    match s._time_paused, s._time_started with
    | some tp, some ts =>
        some { s with _time_started := some (ts + (now - tp)), _paused := false }
    | _, _ => none

/-- `_get(self)`: `if not self._time_started: return 0` (truthiness), then
`self._time_paused - self._time_started` if paused else
`time.time() - self._time_started`. -/
def _get (now : ℚ) (s : TimerState) : Option ℚ :=
  if truthy s._time_started = false then some 0
  else if s._paused = true then
    match s._time_paused, s._time_started with
    | some tp, some ts => some (tp - ts)
    | _, _ => none
  else
    match s._time_started with
    | some ts => some (now - ts)
    | none => none

/-- The `paused` property: `return self._paused`. -/
def paused (s : TimerState) : Bool :=
  s._paused

/-- The `running` property: `return not self._paused`. -/
def running (s : TimerState) : Bool :=
  !s._paused

/-- The `elapsed` property: `got = self._get(); return got or 0`. -/
def elapsed (now : ℚ) (s : TimerState) : Option ℚ :=
  (_get now s).map fun got => if got = 0 then 0 else got

/-- The `duration` property: `return self._duration`. -/
def duration (s : TimerState) : ℚ :=
  s._duration

/-- The `expired` property: `return self.elapsed >= self._duration`. -/
def expired (now : ℚ) (s : TimerState) : Option Bool :=
  (elapsed now s).map fun e => decide (s._duration ≤ e)

/-- The `remaining` property of `CountupTimer`:
`time_left = self._duration - got; return time_left if time_left <= self.duration else 0`. -/
def remaining (now : ℚ) (s : TimerState) : Option ℚ :=
  (_get now s).map fun got =>
    let time_left := s._duration - got
    if time_left ≤ duration s then time_left else 0

end CountupTimer

namespace CountdownTimer

/-- The overriding `remaining` property of `CountdownTimer`:
`time_left = self._duration - got; return max(time_left, 0)`. -/
def remaining (now : ℚ) (s : TimerState) : Option ℚ :=
  (CountupTimer._get now s).map fun got =>
    let time_left := s._duration - got
    max time_left 0

end CountdownTimer

/-- One mutating operation of the timer, performed at clock instant `t`:
`start`, `pause`, `resume` (which must not raise) or `reset` with a fresh
duration. -/
inductive TimerStep : ℚ → TimerState → TimerState → Prop
  | start (t : ℚ) (s : TimerState) : TimerStep t s (CountupTimer.start t s)
  | pause (t : ℚ) (s : TimerState) : TimerStep t s (CountupTimer.pause t s)
  | resume (t : ℚ) (s s' : TimerState) :
      CountupTimer.resume t s = some s' → TimerStep t s s'
  | reset (t d : ℚ) (s : TimerState) : TimerStep t s (CountupTimer.reset d s)

/-- `TimerReach s t`: the state `s` is reachable from some construction by a
sequence of operations whose clock instants are positive and non-decreasing,
and the clock now reads `t`. -/
inductive TimerReach : TimerState → ℚ → Prop
  | init (d t : ℚ) : 0 < t → TimerReach (CountupTimer.init d) t
  | step {s : TimerState} {t t' : ℚ} {s' : TimerState} :
      TimerReach s t → t ≤ t' → TimerStep t' s s' → TimerReach s' t'
  | tick {s : TimerState} {t t' : ℚ} : TimerReach s t → t ≤ t' → TimerReach s t'

/-- Invariant of every reachable state when the clock reads `t`: the clock is
positive, a never-started timer is paused, a start instant is positive and in
the past, and a paused started timer carries a pause instant between its start
instant and now. -/
def TimerInv (s : TimerState) (t : ℚ) : Prop :=
  0 < t ∧
  (s._time_started = none → s._paused = true) ∧
  (∀ ts, s._time_started = some ts → 0 < ts ∧ ts ≤ t) ∧
  (∀ ts, s._time_started = some ts → s._paused = true →
    ∃ tp, s._time_paused = some tp ∧ ts ≤ tp ∧ tp ≤ t)

theorem elapsed_eq_get (now : ℚ) (s : TimerState) :
    CountupTimer.elapsed now s = CountupTimer._get now s := by
  unfold CountupTimer.elapsed
  cases h : CountupTimer._get now s with
  | none => rfl
  | some g =>
      by_cases hg : g = 0 <;> simp [hg]

theorem timerInv_mono {s : TimerState} {t t' : ℚ} (h : TimerInv s t)
    (hle : t ≤ t') : TimerInv s t' := by
  obtain ⟨hpos, hnone, hstarted, hpaused⟩ := h
  exact ⟨lt_of_lt_of_le hpos hle, hnone,
    fun ts hts => ⟨(hstarted ts hts).1, le_trans (hstarted ts hts).2 hle⟩,
    fun ts hts hp => (hpaused ts hts hp).imp
      fun tp h => ⟨h.1, h.2.1, le_trans h.2.2 hle⟩⟩

theorem timerInv_start {s : TimerState} {t t' : ℚ} (h : TimerInv s t)
    (hle : t ≤ t') : TimerInv (CountupTimer.start t' s) t' := by
  obtain ⟨hpos, hnone, hstarted, hpaused⟩ := h
  have hpos' : 0 < t' := lt_of_lt_of_le hpos hle
  unfold CountupTimer.start
  split
  · exact timerInv_mono ⟨hpos, hnone, hstarted, hpaused⟩ hle
  · refine ⟨hpos', by simp, ?_, ?_⟩
    · intro ts hts
      obtain rfl : t' = ts := by simpa using hts
      exact ⟨hpos', le_refl _⟩
    · intro ts hts hp
      exact absurd hp (by simp)

theorem timerInv_pause {s : TimerState} {t t' : ℚ} (h : TimerInv s t)
    (hle : t ≤ t') : TimerInv (CountupTimer.pause t' s) t' := by
  obtain ⟨hpos, hnone, hstarted, hpaused⟩ := h
  have hpos' : 0 < t' := lt_of_lt_of_le hpos hle
  unfold CountupTimer.pause
  split
  · exact timerInv_mono ⟨hpos, hnone, hstarted, hpaused⟩ hle
  · next hcond =>
      push_neg at hcond
      obtain ⟨hp, hst⟩ := hcond
      refine ⟨hpos', fun hn => absurd hn hst, ?_, ?_⟩
      · intro ts hts
        exact ⟨(hstarted ts hts).1, le_trans (hstarted ts hts).2 hle⟩
      · intro ts hts _
        exact ⟨t', rfl, le_trans (hstarted ts hts).2 hle, le_refl _⟩

theorem timerInv_resume {s s' : TimerState} {t t' : ℚ} (h : TimerInv s t)
    (hle : t ≤ t') (hr : CountupTimer.resume t' s = some s') :
    TimerInv s' t' := by
  obtain ⟨hpos, hnone, hstarted, hpaused⟩ := h
  have hpos' : 0 < t' := lt_of_lt_of_le hpos hle
  unfold CountupTimer.resume at hr
  split at hr
  · obtain rfl : s = s' := by simpa using hr
    exact timerInv_mono ⟨hpos, hnone, hstarted, hpaused⟩ hle
  · next hcond =>
      push_neg at hcond
      obtain ⟨hp, hst⟩ := hcond
      simp only [Bool.not_eq_false] at hp
      rcases hss : s._time_started with _ | ts
      · exact absurd hss hst
      · obtain ⟨tp, htp, hle1, hle2⟩ := hpaused ts hss hp
        rw [htp, hss] at hr
        simp only [Option.some.injEq] at hr
        subst hr
        obtain ⟨hts_pos, _⟩ := hstarted ts hss
        refine ⟨hpos', by simp, ?_, ?_⟩
        · intro ts' hts'
          obtain rfl : ts + (t' - tp) = ts' := by simpa using hts'
          constructor
          · have : tp ≤ t' := le_trans hle2 hle
            linarith
          · linarith
        · intro ts' _ hp'
          exact absurd hp' (by simp)

theorem timerInv_reset {s : TimerState} {t t' d : ℚ} (h : TimerInv s t)
    (hle : t ≤ t') : TimerInv (CountupTimer.reset d s) t' := by
  obtain ⟨hpos, _, _, _⟩ := h
  exact ⟨lt_of_lt_of_le hpos hle, fun _ => rfl,
    by simp [CountupTimer.reset, CountupTimer.init],
    by simp [CountupTimer.reset, CountupTimer.init]⟩

theorem timerReach_inv {s : TimerState} {t : ℚ} (h : TimerReach s t) :
    TimerInv s t := by
  induction h with
  | init d t ht =>
      exact ⟨ht, fun _ => rfl, by simp [CountupTimer.init],
        by simp [CountupTimer.init]⟩
  | step hr hle hstep ih =>
      cases hstep with
      | start _ => exact timerInv_start ih hle
      | pause _ => exact timerInv_pause ih hle
      | resume _ _ hres => exact timerInv_resume ih hle hres
      | reset _ _ => exact timerInv_reset ih hle
  | tick hr hle ih => exact timerInv_mono ih hle

/-- C9: a timer freshly constructed with any duration `d` (a negative `d`
included, accepted without validation) has elapsed 0, is paused, is not
running, reports duration `d`, and is expired exactly when `0 ≥ d`. -/
theorem fresh_construct_postconditions (d now : ℚ) :
    CountupTimer.elapsed now (CountupTimer.init d) = some 0 ∧
    CountupTimer.paused (CountupTimer.init d) = true ∧
    CountupTimer.running (CountupTimer.init d) = false ∧
    CountupTimer.duration (CountupTimer.init d) = d ∧
    CountupTimer.expired now (CountupTimer.init d) = some (decide ((0 : ℚ) ≥ d)) := by
  refine ⟨?_, rfl, rfl, rfl, ?_⟩
  · simp [CountupTimer.elapsed, CountupTimer._get, CountupTimer.init,
      CountupTimer.truthy]
  · simp [CountupTimer.expired, CountupTimer.elapsed, CountupTimer._get,
      CountupTimer.init, CountupTimer.truthy, ge_iff_le]

/-- C6: `reset d` from any state yields exactly the state of a fresh
construction with duration `d`: start and pause instants absent, paused, the
given duration, and elapsed 0. -/
theorem reset_eq_fresh_construct (s : TimerState) (d now : ℚ) :
    CountupTimer.reset d s = CountupTimer.init d ∧
    (CountupTimer.reset d s)._time_started = none ∧
    (CountupTimer.reset d s)._time_paused = none ∧
    (CountupTimer.reset d s)._paused = true ∧
    CountupTimer.duration (CountupTimer.reset d s) = d ∧
    CountupTimer.elapsed now (CountupTimer.reset d s) = some 0 := by
  refine ⟨rfl, rfl, rfl, rfl, rfl, ?_⟩
  simp [CountupTimer.reset, CountupTimer.elapsed, CountupTimer._get,
    CountupTimer.init, CountupTimer.truthy]

/-- C8: `pause` in an inapplicable state (already paused, or never started)
returns the state unchanged, and `resume` in an inapplicable state (not
paused, or never started) returns the state unchanged without raising. -/
theorem pause_resume_noop_inapplicable (s : TimerState) (t : ℚ) :
    ((s._paused = true ∨ s._time_started = none) →
      CountupTimer.pause t s = s) ∧
    ((s._paused = false ∨ s._time_started = none) →
      CountupTimer.resume t s = some s) := by
  constructor
  · intro h
    unfold CountupTimer.pause
    rw [if_pos h]
  · intro h
    unfold CountupTimer.resume
    rw [if_pos h]

/-- C4: the CountDown `remaining` query is `max (duration - elapsed) 0` and
therefore never negative, for every state and clock instant (every elapsed
value included, also one past the duration). -/
theorem countdown_remaining_nonneg (s : TimerState) (t : ℚ) :
    CountdownTimer.remaining t s =
      (CountupTimer.elapsed t s).map (fun e => max (s._duration - e) 0) ∧
    (∀ r, CountdownTimer.remaining t s = some r → 0 ≤ r) := by
  constructor
  · rw [elapsed_eq_get]
    rfl
  · intro r hr
    unfold CountdownTimer.remaining at hr
    cases h : CountupTimer._get t s with
    | none => rw [h] at hr; simp at hr
    | some g =>
        rw [h] at hr
        simp only [Option.map_some', Option.some.injEq] at hr
        rw [← hr]
        exact le_max_right _ _

/-- C3: the CountUp `remaining` query returns `duration - elapsed` whenever
that value is at most `duration` and `0` when it exceeds `duration`; it is
not clamped below: a concrete state whose elapsed exceeds its duration
yields the negative remaining `-1`. -/
theorem countup_remaining_asymmetric_clamp :
    (∀ (s : TimerState) (t e : ℚ), CountupTimer.elapsed t s = some e →
      CountupTimer.remaining t s =
        some (if s._duration - e ≤ s._duration then s._duration - e else 0)) ∧
    (CountupTimer.elapsed 3 (CountupTimer.start 1 (CountupTimer.init 1)) = some 2 ∧
     CountupTimer.duration (CountupTimer.start 1 (CountupTimer.init 1)) = 1 ∧
     CountupTimer.remaining 3 (CountupTimer.start 1 (CountupTimer.init 1)) = some (-1)) := by
  refine ⟨?_, ?_, rfl, ?_⟩
  · intro s t e he
    rw [elapsed_eq_get] at he
    unfold CountupTimer.remaining
    rw [he]
    rfl
  · norm_num [CountupTimer.elapsed, CountupTimer._get, CountupTimer.start,
      CountupTimer.init, CountupTimer.truthy]
  · norm_num [CountupTimer.remaining, CountupTimer._get, CountupTimer.start,
      CountupTimer.init, CountupTimer.truthy, CountupTimer.duration]

/-- C10: for every CountdownTimer state and clock instant, the `expired`
query returns `true` exactly when the CountDown `remaining` query returns
`0`. -/
theorem countdown_expired_iff_remaining_zero (s : TimerState) (t : ℚ) :
    CountupTimer.expired t s = some true ↔
      CountdownTimer.remaining t s = some 0 := by
  unfold CountupTimer.expired CountdownTimer.remaining
  rw [elapsed_eq_get]
  cases h : CountupTimer._get t s with
  | none => simp
  | some g =>
      simp only [Option.map_some', Option.some.injEq, decide_eq_true_eq,
        max_eq_right_iff, sub_nonpos]

/-- C7 counterexample: a timer whose start instant is present but equal to 0
(it was started when the clock read 0) is restarted by a second `start`, not
left unchanged: the truthiness test `if self._time_started:` treats the float
0.0 like `None`. -/
theorem start_noop_cex :
    (CountupTimer.start 0 (CountupTimer.init 7))._time_started = some 0 ∧
    CountupTimer.start 5 (CountupTimer.start 0 (CountupTimer.init 7)) ≠
      CountupTimer.start 0 (CountupTimer.init 7) := by
  constructor
  · norm_num [CountupTimer.start, CountupTimer.init, CountupTimer.truthy]
  · intro h
    have h2 := congrArg TimerState._time_started h
    norm_num [CountupTimer.start, CountupTimer.init, CountupTimer.truthy] at h2

/-- C7 (amended): `start` is a no-op on every timer whose start instant is
present and nonzero; in particular, for such a timer, starting twice in a
row is the same as starting once. -/
theorem start_noop_when_started_nonzero (s : TimerState) (t ts : ℚ)
    (h : s._time_started = some ts) (hne : ts ≠ 0) :
    CountupTimer.start t s = s ∧
    CountupTimer.start t (CountupTimer.start t s) = CountupTimer.start t s := by
  have h1 : CountupTimer.start t s = s := by
    simp [CountupTimer.start, CountupTimer.truthy, h, hne]
  exact ⟨h1, by rw [h1, h1]⟩

/-- Witness for C7: the amended theorem applied to a timer started at the
concrete instant 1. -/
theorem start_noop_when_started_nonzero_witness :
    CountupTimer.start 5 (CountupTimer.start 1 (CountupTimer.init 0)) =
      CountupTimer.start 1 (CountupTimer.init 0) ∧
    CountupTimer.start 5 (CountupTimer.start 5 (CountupTimer.start 1 (CountupTimer.init 0))) =
      CountupTimer.start 5 (CountupTimer.start 1 (CountupTimer.init 0)) :=
  start_noop_when_started_nonzero (CountupTimer.start 1 (CountupTimer.init 0)) 5 1
    (by norm_num [CountupTimer.start, CountupTimer.init, CountupTimer.truthy])
    (by norm_num)

/-- C2 counterexample: starting at instant 1, pausing at 2 and resuming at 3
leaves `_time_paused` still set to `some 2`: `resume` does not clear it. -/
theorem resume_time_paused_cex :
    (CountupTimer.resume 3 (CountupTimer.pause 2 (CountupTimer.start 1 (CountupTimer.init 0)))).map
      TimerState._time_paused = some (some 2) := by
  norm_num [CountupTimer.resume, CountupTimer.pause, CountupTimer.start,
    CountupTimer.init, CountupTimer.truthy, Option.some_ne_none, reduceCtorEq]

/-- C2 (amended): `resume` on a paused, started timer leaves `_time_paused`
unchanged rather than clearing it, so the field is still present (it keeps
the last pause instant) while `_paused` is cleared. -/
theorem resume_retains_time_paused (s s' : TimerState) (t : ℚ)
    (hp : s._paused = true) (hst : s._time_started ≠ none)
    (hr : CountupTimer.resume t s = some s') :
    s'._time_paused = s._time_paused ∧ s'._time_paused ≠ none ∧
    s'._paused = false := by
  unfold CountupTimer.resume at hr
  split at hr
  · next hcond =>
      rcases hcond with hc | hc
      · rw [hp] at hc
        exact absurd hc (by simp)
      · exact absurd hc hst
  · rcases htp : s._time_paused with _ | tp
    · rcases hss : s._time_started with _ | ts
      · exact absurd hss hst
      · rw [htp, hss] at hr
        simp at hr
    · rcases hss : s._time_started with _ | ts
      · exact absurd hss hst
      · rw [htp, hss] at hr
        simp only [Option.some.injEq] at hr
        subst hr
        refine ⟨rfl, ?_, rfl⟩
        show (some tp : Option ℚ) ≠ none
        exact Option.some_ne_none tp

/-- Witness for C2: the amended theorem applied to the concrete run
start at 1, pause at 2, resume at 3. -/
theorem resume_retains_time_paused_witness :
    (⟨some 2, some 2, 0, false, 0⟩ : TimerState)._time_paused =
      (CountupTimer.pause 2 (CountupTimer.start 1 (CountupTimer.init 0)))._time_paused ∧
    (⟨some 2, some 2, 0, false, 0⟩ : TimerState)._time_paused ≠ none ∧
    (⟨some 2, some 2, 0, false, 0⟩ : TimerState)._paused = false :=
  resume_retains_time_paused
    (CountupTimer.pause 2 (CountupTimer.start 1 (CountupTimer.init 0)))
    ⟨some 2, some 2, 0, false, 0⟩ 3
    (by norm_num [CountupTimer.pause, CountupTimer.start, CountupTimer.init,
      CountupTimer.truthy, Option.some_ne_none, reduceCtorEq])
    (by norm_num [CountupTimer.pause, CountupTimer.start, CountupTimer.init,
      CountupTimer.truthy, Option.some_ne_none, reduceCtorEq])
    (by norm_num [CountupTimer.resume, CountupTimer.pause, CountupTimer.start,
      CountupTimer.init, CountupTimer.truthy, Option.some_ne_none, reduceCtorEq])

/-- C1 counterexample: a running timer started when the clock read 0 is
treated as never started by `_get`, so elapsed just before a pause at 1 is 0;
after resuming at 2 the start instant has been shifted to the nonzero 1, and
elapsed at 2 reads 1, not 0. -/
theorem pause_resume_elapsed_cex :
    CountupTimer.running (CountupTimer.start 0 (CountupTimer.init 10)) = true ∧
    (CountupTimer.start 0 (CountupTimer.init 10))._time_started = some 0 ∧
    CountupTimer.elapsed 1 (CountupTimer.start 0 (CountupTimer.init 10)) = some 0 ∧
    (CountupTimer.resume 2 (CountupTimer.pause 1 (CountupTimer.start 0 (CountupTimer.init 10)))).map
      (CountupTimer.elapsed 2) = some (some 1) ∧
    (some (1 : ℚ) : Option ℚ) ≠ some 0 := by
  refine ⟨rfl, ?_, ?_, ?_, by norm_num⟩
  · norm_num [CountupTimer.start, CountupTimer.init, CountupTimer.truthy]
  · norm_num [CountupTimer.elapsed, CountupTimer._get, CountupTimer.start,
      CountupTimer.init, CountupTimer.truthy]
  · norm_num [CountupTimer.elapsed, CountupTimer._get, CountupTimer.resume,
      CountupTimer.pause, CountupTimer.start, CountupTimer.init,
      CountupTimer.truthy, Option.some_ne_none, reduceCtorEq]

/-- C1 (amended): for every running timer whose start instant is present and
positive, pausing at `t1` and then resuming at any `t2 ≥ t1` restores
elapsed: the elapsed query at `t2`, immediately after the resume, equals the
elapsed query at `t1`, immediately before the pause, both being `t1 - ts`. -/
theorem pause_resume_preserves_elapsed (s : TimerState) (ts t1 t2 : ℚ)
    (hstart : s._time_started = some ts) (hpos : 0 < ts)
    (hrun : s._paused = false) (hle : t1 ≤ t2) :
    ∃ s', CountupTimer.resume t2 (CountupTimer.pause t1 s) = some s' ∧
      CountupTimer.elapsed t1 s = some (t1 - ts) ∧
      CountupTimer.elapsed t2 s' = CountupTimer.elapsed t1 s := by
  have hne : ts ≠ 0 := ne_of_gt hpos
  have hne' : ts + (t2 - t1) ≠ 0 := by
    have : 0 < ts + (t2 - t1) := by linarith
    exact ne_of_gt this
  have hp1 : CountupTimer.pause t1 s =
      { s with _time_paused := some t1, _paused := true } := by
    simp [CountupTimer.pause, hrun, hstart]
  have hres : CountupTimer.resume t2 (CountupTimer.pause t1 s) =
      some { s with _time_started := some (ts + (t2 - t1)),
                    _time_paused := some t1, _paused := false } := by
    rw [hp1]
    simp [CountupTimer.resume, hstart]
  have he1 : CountupTimer.elapsed t1 s = some (t1 - ts) := by
    rw [elapsed_eq_get]
    simp [CountupTimer._get, hstart, hrun, CountupTimer.truthy, hne]
  refine ⟨_, hres, he1, ?_⟩
  rw [elapsed_eq_get, he1]
  simp only [CountupTimer._get, CountupTimer.truthy]
  rw [if_neg (by simp [hne']), if_neg (by simp)]
  simp only [Option.some.injEq]
  ring

/-- Witness for C1: the amended theorem applied to a timer started at 1,
paused at 2 and resumed at 5. -/
theorem pause_resume_preserves_elapsed_witness :
    ∃ s', CountupTimer.resume 5 (CountupTimer.pause 2 (CountupTimer.start 1 (CountupTimer.init 10))) = some s' ∧
      CountupTimer.elapsed 2 (CountupTimer.start 1 (CountupTimer.init 10)) = some (2 - 1) ∧
      CountupTimer.elapsed 5 s' = CountupTimer.elapsed 2 (CountupTimer.start 1 (CountupTimer.init 10)) :=
  pause_resume_preserves_elapsed (CountupTimer.start 1 (CountupTimer.init 10)) 1 2 5
    (by norm_num [CountupTimer.start, CountupTimer.init, CountupTimer.truthy])
    (by norm_num) rfl (by norm_num)

/-- C5 counterexample: with a merely non-decreasing clock a timer can be
started at instant 0; that state is running with start instant `some 0`, but
elapsed at instant 5 is 0, not `5 - 0`, because `_get` treats the zero start
instant as falsy. -/
theorem reachable_elapsed_cex :
    CountupTimer.running (CountupTimer.start 0 (CountupTimer.init 3)) = true ∧
    (CountupTimer.start 0 (CountupTimer.init 3))._time_started = some 0 ∧
    CountupTimer.elapsed 5 (CountupTimer.start 0 (CountupTimer.init 3)) = some 0 ∧
    (5 : ℚ) - 0 ≠ 0 := by
  refine ⟨rfl, ?_, ?_, by norm_num⟩
  · norm_num [CountupTimer.start, CountupTimer.init, CountupTimer.truthy]
  · norm_num [CountupTimer.elapsed, CountupTimer._get, CountupTimer.start,
      CountupTimer.init, CountupTimer.truthy]

/-- C5 (amended): in every state reachable from construction by
start/pause/resume/reset at positive, non-decreasing clock instants, the
elapsed query succeeds and returns 0 if never started, pause instant minus
start instant if paused, and now minus start instant if running; the result
is never negative. -/
theorem reachable_elapsed_characterization (s : TimerState) (t : ℚ)
    (h : TimerReach s t) :
    ∃ e, CountupTimer.elapsed t s = some e ∧ 0 ≤ e ∧
      (s._time_started = none → e = 0) ∧
      (∀ ts tp, s._time_started = some ts → s._paused = true →
        s._time_paused = some tp → e = tp - ts) ∧
      (∀ ts, s._time_started = some ts → s._paused = false → e = t - ts) := by
  obtain ⟨hpos, hnone, hstarted, hpaused⟩ := timerReach_inv h
  rw [elapsed_eq_get]
  rcases hss : s._time_started with _ | ts
  · refine ⟨0, ?_, le_refl 0, fun _ => rfl, ?_, ?_⟩
    · simp [CountupTimer._get, hss, CountupTimer.truthy]
    · intro ts tp hts
      exact absurd hts (by simp)
    · intro ts hts
      exact absurd hts (by simp)
  · obtain ⟨hts_pos, hts_le⟩ := hstarted ts hss
    have hne : ts ≠ 0 := ne_of_gt hts_pos
    cases hp : s._paused with
    | false =>
        refine ⟨t - ts, ?_, by linarith, ?_, ?_, ?_⟩
        · simp [CountupTimer._get, hss, hp, CountupTimer.truthy, hne]
        · intro hn
          exact absurd hn (by simp)
        · intro ts' tp' hts' hp' htp'
          exact absurd hp' (by simp)
        · intro ts' hts' _
          obtain rfl : ts = ts' := by simpa using hts'
          rfl
    | true =>
        obtain ⟨tp, htp, hle1, hle2⟩ := hpaused ts hss hp
        refine ⟨tp - ts, ?_, by linarith, ?_, ?_, ?_⟩
        · simp [CountupTimer._get, hss, htp, hp, CountupTimer.truthy, hne]
        · intro hn
          exact absurd hn (by simp)
        · intro ts' tp' hts' _ htp'
          obtain rfl : ts = ts' := by simpa using hts'
          obtain rfl : tp = tp' := by
            rw [htp] at htp'
            simpa using htp'
          rfl
        · intro ts' _ hp'
          exact absurd hp' (by simp)

/-- Witness for C5: the amended theorem applied to the freshly constructed
timer with duration 7 at clock instant 1. -/
theorem reachable_elapsed_characterization_witness :
    ∃ e, CountupTimer.elapsed 1 (CountupTimer.init 7) = some e ∧ 0 ≤ e ∧
      ((CountupTimer.init 7)._time_started = none → e = 0) ∧
      (∀ ts tp, (CountupTimer.init 7)._time_started = some ts →
        (CountupTimer.init 7)._paused = true →
        (CountupTimer.init 7)._time_paused = some tp → e = tp - ts) ∧
      (∀ ts, (CountupTimer.init 7)._time_started = some ts →
        (CountupTimer.init 7)._paused = false → e = 1 - ts) :=
  reachable_elapsed_characterization (CountupTimer.init 7) 1
    (TimerReach.init 7 1 (by norm_num))
